import Mathlib

/-!
# antiquefy

A shallow embedding of `index.js` of the antiquefy package: the kind classifier
`isGenerator`, the adaptation function `antiquefy`, and the callback-last wrapper
it returns.

JavaScript values are a first-order datatype, user functions are referenced by
an identifier whose behaviour lives in an environment, and an invocation of the
wrapper is a function from the stored closure state, the receiver and the raw
`arguments` list to the new closure state and the trace of observable events
(driver applications, calls of the underlying callable, continuation calls).

The promise engine (Bluebird), lodash and `assert` are external to `index.js`;
the few operations of theirs that the file uses are modelled from their
description in the specification, and each such definition says so.
-/

namespace Antiquefy

/-! ## Values -/

/-- The declared kind of a function value: an ordinary function, a generator
function, or the ordinary function that `Bluebird.coroutine` returned for a
generator function. -/
inductive FnKind where
  | ordinary
  | generator
  | driven
  deriving DecidableEq, Repr

/-- JavaScript values, as far as the program looks at them. Objects carry their
own data properties and a flag telling whether they inherit from
`Object.prototype` (`Object.create(null)` does not). Function values carry their
kind, their `name` and the identifier of their body; they have no own
properties. `builtin n` is the built-in constructor function named `n`.
Futures are not among these values: what a call returns is a `Completion`. -/
inductive Value where
  | undefined
  | null
  | bool (b : Bool)
  | num (n : Int)
  | str (s : String)
  | arr (xs : List Value)
  | obj (proto : Bool) (props : List (String × Value))
  | fn (kind : FnKind) (name : String) (id : Nat)
  | builtin (name : String)

namespace Value

/-- JavaScript truthiness (`ToBoolean`). -/
def truthy : Value → Bool
  | undefined => false
  | null => false
  | bool b => b
  | num n => n != 0
  | str s => s != ""
  | _ => true

/-- The `typeof` operator. -/
def typeOf : Value → String
  | undefined => "undefined"
  | null => "object"
  | bool _ => "boolean"
  | num _ => "number"
  | str _ => "string"
  | arr _ => "object"
  | obj _ _ => "object"
  | fn _ _ _ => "function"
  | builtin _ => "function"

/-- The operator `a && b`: `a` when `a` is falsy, else `b` (which is only then
evaluated, so it is passed as a thunk that may throw). -/
def and (a : Value) (b : Unit → Except Value Value) : Except Value Value :=
  if a.truthy then b () else .ok a

/-- The operator `a || b`. -/
def or (a b : Value) : Value :=
  if a.truthy then a else b

/-- The operator `a === s` for a string literal `s`. -/
def strictEqStr (a : Value) (s : String) : Value :=
  match a with
  | str t => bool (t == s)
  | _ => bool false

/-- An error object with the given `name` and `message`. -/
def error (name message : String) : Value :=
  obj true [("name", str name), ("message", str message)]

/-- The constructor a value inherits when it has no own `constructor`. -/
def inheritedConstructor : Value → Value
  | bool _ => builtin "Boolean"
  | num _ => builtin "Number"
  | str _ => builtin "String"
  | arr _ => builtin "Array"
  | obj true _ => builtin "Object"
  | fn .generator _ _ => builtin "GeneratorFunction"
  | fn _ _ _ => builtin "Function"
  | builtin _ => builtin "Function"
  | _ => undefined

/-- Property read `v.key` on data properties. Reading a property of `null` or
`undefined` throws a `TypeError`. Own properties come first; of the inherited
properties only `constructor` and the `name` of functions are modelled, which
are the ones the program reads. -/
def get (v : Value) (key : String) : Except Value Value :=
  match v with
  | undefined => .error (error "TypeError" "Cannot read property of undefined")
  | null => .error (error "TypeError" "Cannot read property of null")
  | obj proto props =>
    match props.lookup key with
    | some x => .ok x
    | none => .ok (if key == "constructor" then inheritedConstructor (obj proto props) else undefined)
  | fn k n i =>
    .ok (if key == "constructor" then inheritedConstructor (fn k n i)
      else if key == "name" then str n else undefined)
  | builtin n =>
    .ok (if key == "constructor" then builtin "Function"
      else if key == "name" then str n else undefined)
  | w => .ok (if key == "constructor" then inheritedConstructor w else undefined)

end Value

open Value

/-! ## The kind classifier -/

/-- The function `isGenerator(fn)` of `index.js`:
`return fn && fn.constructor && fn.constructor.name === 'GeneratorFunction';` -/
def isGenerator (fn : Value) : Except Value Value :=
  Value.and fn fun _ => do
    let c ← fn.get "constructor"
    Value.and c fun _ => do
      let c2 ← fn.get "constructor"
      let n ← c2.get "name"
      pure (strictEqStr n "GeneratorFunction")

/-! ## Callables, futures and observable events -/

/-- The settlement of a future: fulfilled with a value, rejected with a failure,
or `pending` for a future that never settles. -/
inductive Future (α : Type) where
  | fulfilled (v : α)
  | rejected (e : Value)
  | pending

/-- What a call of a function does: it returns a plain value, returns a future,
or throws synchronously. -/
inductive Completion where
  | value (v : Value)
  | future (p : Future Value)
  | throw (e : Value)

/-- The behaviour of the functions a program run can refer to. `body id this
args` is what calling the user function `id` as an ordinary callable does (for a
generator function: it returns a generator object); `drive id this args` is the
settlement reached by driving the generator function `id`, started with that
receiver and those arguments, to completion; `native n` is the built-in
constructor `n`. -/
structure Env where
  body : Nat → Value → List Value → Completion
  drive : Nat → Value → List Value → Future Value
  native : String → Value → List Value → Completion

/-- The observable steps of a run, in the order they happen. -/
inductive Event where
  | coroutine (g : Value)
  | call (callee : Value) (this : Value) (args : List Value)
  | callback (cb : Value) (args : List Value)

/-- Whether an event is a continuation call. -/
def Event.isCallback : Event → Bool
  | .callback _ _ => true
  | _ => false

/-- Whether an event is an application of the suspension driver. -/
def Event.isCoroutine : Event → Bool
  | .coroutine _ => true
  | _ => false

/-- Whether an event is a call of the underlying callable. -/
def Event.isCall : Event → Bool
  | .call _ _ _ => true
  | _ => false

/-- Modelled from the spec: the function returned by the Suspension Driver
(`Bluebird.coroutine`, not part of `index.js`) "when invoked, drives all steps to
completion and yields a future of the final value"; it is the `driven` case
below. Every other function value runs its body, and calling a value that is
not a function throws a `TypeError`. -/
def call (env : Env) (f this : Value) (args : List Value) : Completion :=
  match f with
  | .fn .driven _ id => .future (env.drive id this args)
  | .fn _ _ id => env.body id this args
  | .builtin n => env.native n this args
  | _ => .throw (error "TypeError" "not a function")

/-- The bound function `f.bind(this)`: called with `args`, it calls `f` with
receiver `this` and those arguments. The call is recorded in the trace. -/
def bindTo (env : Env) (f this : Value) : List Value → Completion × List Event :=
  fun args => (call env f this args, [Event.call f this args])

/-! ## The external collaborators -/

/-- Modelled from the spec: lodash's `_.isFunction`, not part of `index.js`; the
spec's "invocable". -/
def isFunction : Value → Bool
  | .fn _ _ _ => true
  | .builtin _ => true
  | _ => false

/-- Modelled from the spec: the Suspension Driver `Bluebird.coroutine`, not part
of `index.js`: "given a step-suspension-based callable, returns an equivalent
ordinary callable". The spec defines it on step-suspension-based callables
only; any other input is reported as a `TypeError`. -/
def coroutine : Value → Except Value Value
  | .fn .generator n id => .ok (.fn .driven n id)
  | _ => .error (error "TypeError" "generatorFunction must be a function")

/-- Modelled from the spec: the Execution Engine's treatment of what an
invocation produced (Bluebird, not part of `index.js`): "If invocation returns a
plain value, wrap it in an already-fulfilled future. If it returns a future, use
it directly. If invocation throws synchronously, capture the thrown value and
produce an already-rejected future with it". -/
def settle : Completion → Future Value
  | .value v => .fulfilled v
  | .future p => p
  | .throw e => .rejected e

namespace Bluebird

/-- Modelled from the spec: `Bluebird.resolve`, not part of `index.js`; an
already-fulfilled future of the given value. -/
def resolve {α : Type} (v : α) : Future α :=
  .fulfilled v

/-- Modelled from the spec: Bluebird's `.spread(handler)`, not part of
`index.js`: once the future of the argument sequence is fulfilled, "invoke the
resulting callable with ... positionalArgs spread as individual positional
parameters", and fold what it produced into a future. -/
def spread (p : Future (List Value)) (handler : List Value → Completion × List Event) :
    Future Value × List Event :=
  match p with
  | .fulfilled xs => (settle (handler xs).1, (handler xs).2)
  | .rejected e => (.rejected e, [])
  | .pending => (.pending, [])

/-- Modelled from the spec: the Result Dispatcher, Bluebird's
`.asCallback(callback, options)`, not part of `index.js`. "On rejection with
failure E: call continuation(E)"; on fulfillment with value V, "if
options.spread is true and V is an ordered, indexable sequence: call
continuation(null, V[0], ..., V[n-1])", "otherwise: call continuation(null, V)".
A future that never settles calls nothing. -/
def asCallback (p : Future Value) (callback options : Value) : List Event :=
  match p with
  | .rejected e => [Event.callback callback [e]]
  | .fulfilled v =>
    let spreadOn := match options.get "spread" with
      | .ok s => s.truthy
      | .error _ => false
    match spreadOn, v with
    | true, .arr xs => [Event.callback callback (Value.null :: xs)]
    | _, _ => [Event.callback callback [Value.null, v]]
  | .pending => []

end Bluebird

/-! ## The adaptation function -/

/-- The closure state of an adapted function: the variables `_fn` and
`_options` of `antiquefy` that the returned function closes over. -/
structure Adapted where
  _fn : Value
  _options : Value

/-- The message of the sanity check of `antiquefy`. -/
def assertMessage (_fn : Value) : String :=
  "The input to antiquefy is expected" ++
  "to be either a function or a generator function, \x27" ++
  typeOf _fn ++ "\x27 given."

/-- The function `antiquefy(fn, options)` of `index.js` up to its `return`: it
sets up `_fn` and `_options`, asserts that `_fn` is a function, and returns the
adapted function (its closure state). The trace lists the calls made while
adapting; there are none. -/
def antiquefy (fn options : Value) : Except Value (Adapted × List Event) :=
  let _fn := fn
  let _options := Value.or options (.obj true [("spread", .bool false)])
  if isFunction _fn then .ok (⟨_fn, _options⟩, [])
  else .error (error "AssertionError" (assertMessage _fn))

/-- The expression `new Array(len)`: `len` empty slots, which read as
`undefined`; a negative length throws a `RangeError`. -/
def newArray (len : Int) : Except Value (List Value) :=
  if len < 0 then .error (error "RangeError" "Invalid array length")
  else .ok (List.replicate len.toNat .undefined)

/-- The loop `for (var i = 0; i < argsToFn.length; ++i) argsToFn[i] = arguments[i];`
started at index `i`, with at most `fuel` iterations. -/
def copyLoop (arguments : List Value) : Nat → Nat → List Value → List Value
  | 0, _, argsToFn => argsToFn
  | fuel + 1, i, argsToFn =>
    if i < argsToFn.length then
      copyLoop arguments fuel (i + 1) (argsToFn.set i (arguments.getD i .undefined))
    else argsToFn

/-- The function that `antiquefy` returns, called with receiver `this` and the
raw argument list `arguments`. The result is the closure state after the call
and the trace of the run, or the value thrown to the call site. -/
def antiquefied (env : Env) (a : Adapted) (this : Value) (arguments : List Value) :
    Except Value (Adapted × List Event) := do
  let argsToFn ← newArray ((arguments.length : Int) - 1)
  let argsToFn := copyLoop arguments argsToFn.length 0 argsToFn
  let callback := arguments.getD (arguments.length - 1) .undefined
  let g ← isGenerator a._fn
  let (_fn, ev1) ←
    if g.truthy then (coroutine a._fn).map fun w => (w, [Event.coroutine a._fn])
    else pure (a._fn, [])
  let argsPromise := Bluebird.resolve argsToFn
  let (fnPromise, ev2) := Bluebird.spread argsPromise (bindTo env _fn this)
  let ev3 := Bluebird.asCallback fnPromise callback a._options
  pure (⟨_fn, a._options⟩, ev1 ++ ev2 ++ ev3)

/-- A sequence of invocations of one adapted function, each with its receiver
and argument list. An invocation that throws leaves the closure state as it
was. The result is the final closure state and the whole trace. -/
def invocations (env : Env) (a : Adapted) : List (Value × List Value) → Adapted × List Event
  | [] => (a, [])
  | (this, arguments) :: rest =>
    match antiquefied env a this arguments with
    | .ok (a2, ev) => ((invocations env a2 rest).1, ev ++ (invocations env a2 rest).2)
    | .error _ => invocations env a rest

/-! ## What a callable eventually produces -/

/-- The settlement that the callable `f`, run the way its kind requires with
receiver `this` and arguments `args`, eventually reaches: a generator function
is driven to completion, any other callable is called, a plain return value
counting as fulfilment and a synchronous throw as rejection. -/
def outcome (env : Env) (f this : Value) (args : List Value) : Future Value :=
  match f with
  | .fn .generator _ id => env.drive id this args
  | g => settle (call env g this args)

/-! ## The functions of the test suite -/

/-- The sum `a + b` of two numbers (other operands are not used by the tests
and give `undefined` here). -/
def plus : Value → Value → Value
  | .num a, .num b => .num (a + b)
  | _, _ => .undefined

/-- The bodies of the functions that `tests/Functions.js` adapts, by identifier:
`0` is `function(a, b) { return a + b; }`, `1` returns `Bluebird.resolve(a + b)`,
`2` returns `[a, b]`, `3` throws `Error('Oh noes!')`, `4` returns `this.b + a`;
`5` returns a future that never settles. Any other identifier returns a fresh
object. -/
def testBody (id : Nat) (this : Value) (args : List Value) : Completion :=
  match id with
  | 0 => .value (plus (args.getD 0 .undefined) (args.getD 1 .undefined))
  | 1 => .future (.fulfilled (plus (args.getD 0 .undefined) (args.getD 1 .undefined)))
  | 2 => .value (.arr [args.getD 0 .undefined, args.getD 1 .undefined])
  | 3 => .throw (error "Error" "Oh noes!")
  | 4 =>
    match this.get "b" with
    | .ok b => .value (plus b (args.getD 0 .undefined))
    | .error e => .throw e
  | 5 => .future .pending
  | _ => .value (.obj true [])

/-- The environment of the test suite; every generator function in it is
`function*(a, b) { return a + b; }`. -/
def testEnv : Env :=
  ⟨testBody, fun _ _ args => .fulfilled (plus (args.getD 0 .undefined) (args.getD 1 .undefined)),
    fun _ _ _ => .value (.obj true [])⟩

/-- A continuation, as a function value. -/
def done : Value :=
  .fn .ordinary "done" 100

/-! ## Auxiliary lemmas -/

/-- The classifier on a user function value: `true` exactly for generator
functions. -/
theorem isGenerator_fn (k : FnKind) (n : String) (i : Nat) :
    isGenerator (.fn k n i) = .ok (.bool (k == .generator)) := by
  cases k <;> rfl

/-- The classifier on a built-in constructor. -/
theorem isGenerator_builtin (n : String) : isGenerator (.builtin n) = .ok (.bool false) := by
  rfl

/-- A property read on a truthy value does not throw. -/
theorem get_of_truthy (v : Value) (key : String) (h : v.truthy = true) :
    ∃ r, v.get key = .ok r := by
  cases v with
  | undefined => simp [truthy] at h
  | null => simp [truthy] at h
  | obj proto props =>
    simp only [Value.get]
    cases props.lookup key <;> exact ⟨_, rfl⟩
  | bool b => exact ⟨_, rfl⟩
  | num n => exact ⟨_, rfl⟩
  | str s => exact ⟨_, rfl⟩
  | arr xs => exact ⟨_, rfl⟩
  | fn k n i => exact ⟨_, rfl⟩
  | builtin n => exact ⟨_, rfl⟩

/-- The classifier never throws. -/
theorem isGenerator_total (v : Value) : ∃ r, isGenerator v = .ok r := by
  unfold isGenerator Value.and
  by_cases hv : v.truthy = true
  · obtain ⟨c, hc⟩ := get_of_truthy v "constructor" hv
    simp only [hv, if_true, hc, Bind.bind, Except.bind]
    by_cases ht : c.truthy = true
    · obtain ⟨n, hn⟩ := get_of_truthy c "name" ht
      simp only [ht, if_true, hn]
      exact ⟨_, rfl⟩
    · simp only [ht]
      exact ⟨_, rfl⟩
  · simp only [hv]
    exact ⟨_, rfl⟩

/-- The copy loop fills the fresh array with the leading arguments: started at
index `i` on an array of length `m` that already agrees with `arguments` below
`i`, with enough fuel, it ends with the first `m` arguments. -/
theorem copyLoop_spec (arguments : List Value) (m : Nat) (hm : m ≤ arguments.length) :
    ∀ (fuel i : Nat) (A : List Value), A.length = m → i ≤ m → m - i ≤ fuel →
      (∀ j, j < i → A[j]? = arguments[j]?) →
      copyLoop arguments fuel i A = arguments.take m := by
  intro fuel
  induction fuel with
  | zero =>
    intro i A hA hi hfuel hpre
    have him : i = m := by omega
    subst him
    simp only [copyLoop]
    apply List.ext_getElem?
    intro j
    by_cases hj : j < i
    · rw [hpre j hj, List.getElem?_take_of_lt hj]
    · rw [List.getElem?_eq_none (by omega), List.getElem?_eq_none (by simp; omega)]
  | succ fuel ih =>
    intro i A hA hi hfuel hpre
    simp only [copyLoop]
    split
    · rename_i hlt
      apply ih
      · simp [hA]
      · omega
      · omega
      · intro j hj
        by_cases hji : j = i
        · subst hji
          rw [List.getElem?_set_self (by omega)]
          simp [List.getD_eq_getElem?_getD]
          rw [List.getElem?_eq_getElem (by omega)]
          simp
        · rw [List.getElem?_set_ne (by omega)]
          exact hpre j (by omega)
    · rename_i hlt
      have him : i = m := by omega
      subst him
      apply List.ext_getElem?
      intro j
      by_cases hj : j < i
      · rw [hpre j hj, List.getElem?_take_of_lt hj]
      · rw [List.getElem?_eq_none (by omega), List.getElem?_eq_none (by simp; omega)]

/-- The array of "real" arguments built by the wrapper is the argument list
without its last element. -/
theorem argsToFn_eq (arguments : List Value) :
    copyLoop arguments (arguments.length - 1) 0
      (List.replicate (arguments.length - 1) .undefined) = arguments.dropLast := by
  rw [List.dropLast_eq_take]
  exact copyLoop_spec arguments (arguments.length - 1) (by omega) _ 0 _ (by simp) (by omega)
    (by omega) (by intro j hj; omega)

/-- The callback read by the wrapper is the last argument. -/
theorem callback_eq (arguments : List Value) (h : arguments ≠ []) :
    arguments.getD (arguments.length - 1) .undefined = arguments.getLast h := by
  rw [List.getLast_eq_getElem, List.getD_eq_getElem?_getD, List.getElem?_eq_getElem]
  rfl

/-- The expression `new Array(arguments.length - 1)` for a non-empty argument
list. -/
theorem newArray_eq (arguments : List Value) (h : arguments ≠ []) :
    newArray ((arguments.length : Int) - 1) =
      .ok (List.replicate (arguments.length - 1) .undefined) := by
  have hl : 0 < arguments.length := List.length_pos.mpr h
  have h1 : ¬ ((arguments.length : Int) - 1 < 0) := by omega
  have h2 : ((arguments.length : Int) - 1).toNat = arguments.length - 1 := by omega
  simp only [newArray, h1, if_false, h2]

/-- An invocation without any argument throws a `RangeError` to the call site
and does nothing else. -/
theorem antiquefied_nil (env : Env) (a : Adapted) (this : Value) :
    antiquefied env a this [] = .error (error "RangeError" "Invalid array length") := by
  rfl

/-- The run of the wrapper on a stored callable that the classifier reports as
not a generator function: the callable is called with the receiver and the
leading arguments, and what it produced is dispatched to the last argument. -/
theorem antiquefied_ordinary (env : Env) (f opts this : Value) (arguments : List Value)
    (h : arguments ≠ []) (hg : isGenerator f = .ok (.bool false)) :
    antiquefied env ⟨f, opts⟩ this arguments =
      .ok (⟨f, opts⟩, Event.call f this arguments.dropLast ::
        Bluebird.asCallback (settle (call env f this arguments.dropLast))
          (arguments.getLast h) opts) := by
  simp only [antiquefied, newArray_eq arguments h, hg, Bind.bind, Except.bind, List.length_replicate,
    argsToFn_eq, callback_eq arguments h, truthy, Bluebird.resolve, Bluebird.spread, bindTo,
    pure, Except.pure]
  rfl

/-- The run of the wrapper on a stored generator function: the driver is
applied, its result is stored and called with the receiver and the leading
arguments, and the settlement of the driven run is dispatched to the last
argument. -/
theorem antiquefied_generator (env : Env) (n : String) (id : Nat) (opts this : Value)
    (arguments : List Value) (h : arguments ≠ []) :
    antiquefied env ⟨.fn .generator n id, opts⟩ this arguments =
      .ok (⟨.fn .driven n id, opts⟩, Event.coroutine (.fn .generator n id) ::
        Event.call (.fn .driven n id) this arguments.dropLast ::
        Bluebird.asCallback (env.drive id this arguments.dropLast) (arguments.getLast h) opts) := by
  simp only [antiquefied, newArray_eq arguments h, isGenerator_fn, Bind.bind, Except.bind,
    List.length_replicate, argsToFn_eq, callback_eq arguments h, truthy, Bluebird.resolve,
    Bluebird.spread, bindTo, pure, Except.pure, coroutine, Except.map, call, settle]
  rfl

/-- Every event the dispatcher produces is a continuation call, and it produces
at most one. -/
theorem asCallback_events (p : Future Value) (cb opts : Value) :
    (Bluebird.asCallback p cb opts).filter Event.isCallback = Bluebird.asCallback p cb opts ∧
    (Bluebird.asCallback p cb opts).filter Event.isCall = [] ∧
    (Bluebird.asCallback p cb opts).filter Event.isCoroutine = [] ∧
    (Bluebird.asCallback p cb opts).length ≤ 1 := by
  cases p with
  | rejected e => simp [Bluebird.asCallback, Event.isCallback, Event.isCall, Event.isCoroutine]
  | pending => simp [Bluebird.asCallback]
  | fulfilled v =>
    simp only [Bluebird.asCallback]
    split <;> simp [Event.isCallback, Event.isCall, Event.isCoroutine]

/-- One invocation of an adapted function with at least one argument: the
closure state it leaves and the calls it makes. -/
theorem antiquefied_run (env : Env) (f opts this : Value) (arguments : List Value)
    (h : arguments ≠ []) (hf : isFunction f = true) :
    ∃ a2 tr, antiquefied env ⟨f, opts⟩ this arguments = .ok (a2, tr) ∧
      a2._options = opts ∧
      (isGenerator f = .ok (.bool false) → a2._fn = f) ∧
      (∀ n id, f = .fn .generator n id → a2._fn = .fn .driven n id) ∧
      tr.filter Event.isCall = [Event.call a2._fn this arguments.dropLast] ∧
      tr.filter Event.isCallback =
        Bluebird.asCallback (outcome env f this arguments.dropLast) (arguments.getLast h) opts ∧
      (tr.filter Event.isCoroutine).length ≤ 1 := by
  by_cases hgen : ∃ n id, f = .fn .generator n id
  · obtain ⟨n, id, rfl⟩ := hgen
    obtain ⟨h1, h2, h3, _⟩ :=
      asCallback_events (env.drive id this arguments.dropLast) (arguments.getLast h) opts
    refine ⟨_, _, antiquefied_generator env n id opts this arguments h, rfl, ?_, ?_, ?_, ?_, ?_⟩
    · intro hg
      rw [isGenerator_fn] at hg
      simp at hg
    · intro n2 id2 he
      cases he
      rfl
    · simp [List.filter_cons, Event.isCall, h2]
    · simp [List.filter_cons, Event.isCallback, h1, outcome]
    · simp [List.filter_cons, Event.isCoroutine, h3]
  · have hg : isGenerator f = .ok (.bool false) := by
      cases f with
      | fn k n id =>
        cases k with
        | generator => exact absurd ⟨n, id, rfl⟩ hgen
        | ordinary => rfl
        | driven => rfl
      | builtin n => rfl
      | undefined => simp [isFunction] at hf
      | null => simp [isFunction] at hf
      | bool b => simp [isFunction] at hf
      | num n => simp [isFunction] at hf
      | str s => simp [isFunction] at hf
      | arr xs => simp [isFunction] at hf
      | obj p ps => simp [isFunction] at hf
    have ho : outcome env f this arguments.dropLast =
        settle (call env f this arguments.dropLast) := by
      unfold outcome
      split
      · rename_i n id
        exact absurd ⟨_, id, rfl⟩ hgen
      · rfl
    obtain ⟨h1, h2, h3, _⟩ :=
      asCallback_events (settle (call env f this arguments.dropLast)) (arguments.getLast h) opts
    refine ⟨_, _, antiquefied_ordinary env f opts this arguments h hg, rfl, ?_, ?_, ?_, ?_, ?_⟩
    · intro _
      rfl
    · intro n id he
      exact absurd ⟨n, id, he⟩ hgen
    · simp [List.filter_cons, Event.isCall, h2]
    · simp [List.filter_cons, Event.isCallback, h1, ho]
    · simp [List.filter_cons, Event.isCoroutine, h3]

/-- The adaptation of a function value succeeds, stores the function as it is,
and calls nothing. -/
theorem antiquefy_ok (f options : Value) (hf : isFunction f = true) :
    antiquefy f options =
      .ok (⟨f, Value.or options (.obj true [("spread", .bool false)])⟩, []) := by
  simp [antiquefy, hf]

/-- Over any sequence of invocations, an adapted function whose stored callable
the classifier reports as not a generator function keeps its closure state and
never applies the driver. -/
theorem invocations_stable (env : Env) (f opts : Value) (hg : isGenerator f = .ok (.bool false))
    (calls : List (Value × List Value)) :
    (invocations env ⟨f, opts⟩ calls).1 = ⟨f, opts⟩ ∧
      (invocations env ⟨f, opts⟩ calls).2.filter Event.isCoroutine = [] := by
  induction calls with
  | nil => exact ⟨rfl, rfl⟩
  | cons c rest ih =>
    obtain ⟨this, arguments⟩ := c
    by_cases h : arguments = []
    · subst h
      simp only [invocations, antiquefied_nil]
      exact ih
    · simp only [invocations, antiquefied_ordinary env f opts this arguments h hg]
      refine ⟨ih.1, ?_⟩
      rw [List.filter_append, ih.2, List.filter_cons]
      simp [Event.isCoroutine, (asCallback_events _ _ _).2.2.1]

/-- Over any sequence of invocations, an adapted function built from a generator
function applies the driver at most once. -/
theorem invocations_generator (env : Env) (n : String) (id : Nat) (opts : Value)
    (calls : List (Value × List Value)) :
    ((invocations env ⟨.fn .generator n id, opts⟩ calls).2.filter Event.isCoroutine).length ≤ 1 := by
  induction calls with
  | nil => simp [invocations]
  | cons c rest ih =>
    obtain ⟨this, arguments⟩ := c
    by_cases h : arguments = []
    · subst h
      simp only [invocations, antiquefied_nil]
      exact ih
    · simp only [invocations, antiquefied_generator env n id opts this arguments h]
      rw [List.filter_append, (invocations_stable env (.fn .driven n id) opts rfl rest).2]
      simp [List.filter_cons, Event.isCoroutine, (asCallback_events _ _ _).2.2.1]

/-! ## The claims -/

/-- C1: for an ordinary callable `f` (a function value that the classifier does
not report as a generator function), if `f` called with receiver `this` and
arguments `args` returns the plain value `v` or a future fulfilled with `v`,
then `antiquefy(f)` with options omitted succeeds, and invoking the adapted
function with `args` followed by `cb` does not throw, calls `f` once and calls
`cb` exactly once, with the two arguments `(null, v)`; both cases give the same
trace. -/
theorem antiquefy_success (env : Env) (f this cb v : Value) (args : List Value)
    (hf : isFunction f = true) (hg : isGenerator f = .ok (.bool false))
    (hr : call env f this args = .value v ∨ call env f this args = .future (.fulfilled v)) :
    ∃ a, antiquefy f .undefined = .ok (a, []) ∧
      antiquefied env a this (args ++ [cb]) =
        .ok (a, [Event.call f this args, Event.callback cb [.null, v]]) := by
  refine ⟨_, antiquefy_ok f .undefined hf, ?_⟩
  rw [antiquefied_ordinary env f _ this (args ++ [cb]) (by simp) hg]
  rcases hr with hr | hr <;>
    simp [hr, settle, Bluebird.asCallback, Value.or, truthy, Value.get, List.lookup]

/-- Witness of C1 on the first two tests: `antiquefy(function(a, b) { return a + b; })`
called with `(2, 3, done)`. -/
theorem antiquefy_success_witness :
    ∃ a, antiquefy (.fn .ordinary "" 0) .undefined = .ok (a, []) ∧
      antiquefied testEnv a .undefined [.num 2, .num 3, done] =
        .ok (a, [Event.call (.fn .ordinary "" 0) .undefined [.num 2, .num 3],
          Event.callback done [.null, .num 5]]) :=
  antiquefy_success testEnv (.fn .ordinary "" 0) .undefined done (.num 5) [.num 2, .num 3]
    rfl rfl (Or.inl rfl)

/-- C2: for every function value `f`, argument list and options value, if `f`
throws `E` synchronously or returns a future rejected with `E` (for a generator
function: if driving it ends in a rejection with `E`), then the invocation of
the adapted function returns normally to its call site and the continuation is
called exactly once, with the single argument `E`. -/
theorem antiquefy_failure (env : Env) (f this cb E options : Value) (args : List Value)
    (hf : isFunction f = true)
    (hr : (isGenerator f = .ok (.bool false) ∧
        (call env f this args = .throw E ∨ call env f this args = .future (.rejected E))) ∨
      (∃ n id, f = .fn .generator n id ∧ env.drive id this args = .rejected E)) :
    ∃ a, antiquefy f options = .ok (a, []) ∧
      ∃ a2 tr, antiquefied env a this (args ++ [cb]) = .ok (a2, tr) ∧
        tr.filter Event.isCallback = [Event.callback cb [E]] := by
  refine ⟨_, antiquefy_ok f options hf, ?_⟩
  obtain ⟨a2, tr, hrun, -, -, -, -, hcb, -⟩ :=
    antiquefied_run env f (Value.or options (.obj true [("spread", .bool false)])) this
      (args ++ [cb]) (by simp) hf
  refine ⟨a2, tr, hrun, ?_⟩
  rw [hcb]
  have ho : outcome env f this args = .rejected E := by
    rcases hr with ⟨hg, hr | hr⟩ | ⟨n, id, rfl, hd⟩
    · cases f with
      | fn k n id =>
        cases k with
        | generator => rw [isGenerator_fn] at hg; simp at hg
        | ordinary => simp [outcome, hr, settle]
        | driven => simp [outcome, hr, settle]
      | _ => simp [outcome, hr, settle]
    · cases f with
      | fn k n id =>
        cases k with
        | generator => rw [isGenerator_fn] at hg; simp at hg
        | ordinary => simp [outcome, hr, settle]
        | driven => simp [outcome, hr, settle]
      | _ => simp [outcome, hr, settle]
    · simpa [outcome] using hd
  simp [ho, Bluebird.asCallback]

/-- Witness of C2 on the test "Should handle thrown errors", with spreading
switched on. -/
theorem antiquefy_failure_witness :
    ∃ a, antiquefy (.fn .ordinary "" 3) (.obj true [("spread", .bool true)]) = .ok (a, []) ∧
      ∃ a2 tr, antiquefied testEnv a .undefined ([] ++ [done]) = .ok (a2, tr) ∧
        tr.filter Event.isCallback = [Event.callback done [error "Error" "Oh noes!"]] :=
  antiquefy_failure testEnv (.fn .ordinary "" 3) .undefined done (error "Error" "Oh noes!")
    (.obj true [("spread", .bool true)]) [] rfl (Or.inl ⟨rfl, Or.inl rfl⟩)

/-- C3 (spread law): let the function value `f` fulfil with `V` (return `V` or
a future fulfilled with `V`; for a generator function: be driven to the
completion value `V`). Invoking the adapted function calls the continuation
exactly once; when `options.spread` is `true` and `V` is the array
`[V0, ..., Vn-1]` the arguments are `(null, V0, ..., Vn-1)`, and when options
are omitted, or `options.spread` is `false`, or `V` is not an array, the
arguments are `(null, V)`. -/
theorem spread_law (env : Env) (f this cb V options : Value) (args : List Value)
    (hf : isFunction f = true) (hr : outcome env f this args = .fulfilled V) :
    ∃ a, antiquefy f options = .ok (a, []) ∧
      ∃ a2 tr, antiquefied env a this (args ++ [cb]) = .ok (a2, tr) ∧
        (∀ xs, options.get "spread" = .ok (.bool true) → V = .arr xs →
          tr.filter Event.isCallback = [Event.callback cb (.null :: xs)]) ∧
        (options = .undefined ∨ options.get "spread" = .ok (.bool false) ∨ (∀ xs, V ≠ .arr xs) →
          tr.filter Event.isCallback = [Event.callback cb [.null, V]]) := by
  obtain ⟨a2, tr, hrun, -, -, -, -, hcb, -⟩ :=
    antiquefied_run env f (Value.or options (.obj true [("spread", .bool false)])) this
      (args ++ [cb]) (by simp) hf
  refine ⟨_, antiquefy_ok f options hf, a2, tr, hrun, ?_, ?_⟩
  · intro xs ho hV
    subst hV
    rw [hcb]
    cases options with
    | obj p ps =>
      simp [hr, Value.or, truthy, Bluebird.asCallback, ho]
    | undefined => simp [Value.get] at ho
    | null => simp [Value.get] at ho
    | bool b => simp [Value.get] at ho
    | num n => simp [Value.get] at ho
    | str s => simp [Value.get] at ho
    | arr ys => simp [Value.get] at ho
    | fn k n i => simp [Value.get] at ho
    | builtin n => simp [Value.get] at ho
  · intro hcase
    rw [hcb]
    rcases hcase with ho | ho | hV
    · subst ho
      simp [hr, Value.or, truthy, Bluebird.asCallback, Value.get, List.lookup]
    · cases options with
      | obj p ps =>
        simp [hr, Value.or, truthy, Bluebird.asCallback, ho]
      | undefined => simp [Value.get] at ho
      | null => simp [Value.get] at ho
      | bool b => simp [Value.get] at ho
      | num n => simp [Value.get] at ho
      | str s => simp [Value.get] at ho
      | arr ys => simp [Value.get] at ho
      | fn k n i => simp [Value.get] at ho
      | builtin n => simp [Value.get] at ho
    · cases V with
      | arr xs => exact absurd rfl (hV xs)
      | _ =>
        simp only [List.dropLast_concat, hr, Bluebird.asCallback, List.getLast_append_singleton]
        split
        · rename_i heq
          cases heq
        · rfl

/-- Witness of C3 on the test "Should be able to spread the arguments":
`antiquefy(function(a, b) { return [a, b]; }, { spread: true })` called with
`(4, 6, done)` calls `done(null, 4, 6)`. -/
theorem spread_law_witness :
    ∃ a, antiquefy (.fn .ordinary "" 2) (.obj true [("spread", .bool true)]) = .ok (a, []) ∧
      ∃ a2 tr, antiquefied testEnv a .undefined ([.num 4, .num 6] ++ [done]) = .ok (a2, tr) ∧
        tr.filter Event.isCallback = [Event.callback done [.null, .num 4, .num 6]] := by
  obtain ⟨a, ha, a2, tr, htr, hspread, -⟩ :=
    spread_law testEnv (.fn .ordinary "" 2) .undefined done (.arr [.num 4, .num 6])
      (.obj true [("spread", .bool true)]) [.num 4, .num 6] rfl rfl
  exact ⟨a, ha, a2, tr, htr, hspread [.num 4, .num 6] rfl rfl⟩

/-- C4, the claim as stated fails: `function() { return new Promise(function() {}); }`
(identifier `5` of the test environment) returns a future that never settles;
the adapted function, invoked with the continuation `done` as its only
argument, calls the underlying function and never calls `done`. -/
theorem exactly_once_counterexample :
    antiquefy (.fn .ordinary "" 5) .undefined =
      .ok (⟨.fn .ordinary "" 5, .obj true [("spread", .bool false)]⟩, []) ∧
    antiquefied testEnv ⟨.fn .ordinary "" 5, .obj true [("spread", .bool false)]⟩ .undefined [done] =
      .ok (⟨.fn .ordinary "" 5, .obj true [("spread", .bool false)]⟩,
        [Event.call (.fn .ordinary "" 5) .undefined []]) ∧
    ([Event.call (.fn .ordinary "" 5) .undefined []].filter Event.isCallback).length = 0 :=
  ⟨rfl, rfl, rfl⟩

/-- C4, amended: for every invocation of an adapted function with at least one
argument, the last argument `cb` is called at most once. When the underlying
callable throws or its future is rejected with `e`, `cb` is called exactly once,
with `(e)`; when it returns a plain value or its future is fulfilled, `cb` is
called exactly once, with `null` first; these cases exclude each other. When the
future never settles, `cb` is not called. -/
theorem exactly_once_when_settled (env : Env) (f this options : Value) (arguments : List Value)
    (h : arguments ≠ []) (hf : isFunction f = true) :
    ∃ a, antiquefy f options = .ok (a, []) ∧
      ∃ a2 tr, antiquefied env a this arguments = .ok (a2, tr) ∧
        (tr.filter Event.isCallback).length ≤ 1 ∧
        (∀ e, outcome env f this arguments.dropLast = .rejected e →
          tr.filter Event.isCallback = [Event.callback (arguments.getLast h) [e]]) ∧
        (∀ v, outcome env f this arguments.dropLast = .fulfilled v →
          ∃ rest, tr.filter Event.isCallback =
            [Event.callback (arguments.getLast h) (.null :: rest)]) ∧
        (outcome env f this arguments.dropLast = .pending → tr.filter Event.isCallback = []) := by
  obtain ⟨a2, tr, hrun, -, -, -, -, hcb, -⟩ :=
    antiquefied_run env f (Value.or options (.obj true [("spread", .bool false)])) this
      arguments h hf
  refine ⟨_, antiquefy_ok f options hf, a2, tr, hrun, ?_, ?_, ?_, ?_⟩
  · rw [hcb]
    exact (asCallback_events _ _ _).2.2.2
  · intro e he
    rw [hcb, he]
    rfl
  · intro v hv
    rw [hcb, hv]
    simp only [Bluebird.asCallback]
    split
    · exact ⟨_, rfl⟩
    · exact ⟨_, rfl⟩
  · intro hp
    rw [hcb, hp]
    rfl

/-- Witness of the amended C4 on the test "Should handle thrown errors". -/
theorem exactly_once_when_settled_witness :
    ∃ a, antiquefy (.fn .ordinary "" 3) .undefined = .ok (a, []) ∧
      ∃ a2 tr, antiquefied testEnv a .undefined [done] = .ok (a2, tr) ∧
        (tr.filter Event.isCallback).length ≤ 1 ∧
        tr.filter Event.isCallback = [Event.callback done [error "Error" "Oh noes!"]] := by
  obtain ⟨a, ha, a2, tr, htr, hle, hrej, -, -⟩ :=
    exactly_once_when_settled testEnv (.fn .ordinary "" 3) .undefined .undefined [done]
      (by simp) rfl
  exact ⟨a, ha, a2, tr, htr, hle, hrej _ rfl⟩

/-- C5 (variadic law): for every argument list of length `n >= 1` passed to an
adapted function, the last element is the continuation (every continuation
call of the run is a call of it), and the underlying callable (the function
itself, or its driver-wrapped form for a generator function) is invoked exactly
once, with exactly the `n - 1` preceding elements, in order, as its positional
parameters; this includes `n - 1 = 0`. -/
theorem variadic_law (env : Env) (f this options : Value) (arguments : List Value)
    (h : arguments ≠ []) (hf : isFunction f = true) :
    ∃ a, antiquefy f options = .ok (a, []) ∧
      ∃ a2 tr, antiquefied env a this arguments = .ok (a2, tr) ∧
        tr.filter Event.isCall = [Event.call a2._fn this arguments.dropLast] ∧
        (isGenerator f = .ok (.bool false) → a2._fn = f) ∧
        (∀ n id, f = .fn .generator n id → a2._fn = .fn .driven n id) ∧
        arguments.dropLast ++ [arguments.getLast h] = arguments ∧
        arguments.dropLast.length = arguments.length - 1 ∧
        (∀ c xs, Event.callback c xs ∈ tr → c = arguments.getLast h) := by
  obtain ⟨a2, tr, hrun, -, hord, hgen, hcall, hcb, -⟩ :=
    antiquefied_run env f (Value.or options (.obj true [("spread", .bool false)])) this
      arguments h hf
  refine ⟨_, antiquefy_ok f options hf, a2, tr, hrun, hcall, hord, hgen,
    List.dropLast_append_getLast h, List.length_dropLast arguments, ?_⟩
  intro c xs hmem
  have hin : Event.callback c xs ∈ tr.filter Event.isCallback :=
    List.mem_filter.mpr ⟨hmem, rfl⟩
  rw [hcb] at hin
  cases ho : outcome env f this arguments.dropLast with
  | rejected e =>
    rw [ho] at hin
    simp [Bluebird.asCallback] at hin
    exact hin.1
  | pending =>
    rw [ho] at hin
    simp [Bluebird.asCallback] at hin
  | fulfilled v =>
    rw [ho] at hin
    simp only [Bluebird.asCallback] at hin
    split at hin <;> simp at hin <;> exact hin.1

/-- Witness of C5 on the test "Should handle variadic arguments": the adapted
function called with `(5, 6, 7, 8, done)` calls the function with `(5, 6, 7, 8)`. -/
theorem variadic_law_witness :
    ∃ a, antiquefy (.fn .ordinary "" 0) .undefined = .ok (a, []) ∧
      ∃ a2 tr, antiquefied testEnv a .undefined [.num 5, .num 6, .num 7, .num 8, done] =
          .ok (a2, tr) ∧
        tr.filter Event.isCall =
          [Event.call (.fn .ordinary "" 0) .undefined [.num 5, .num 6, .num 7, .num 8]] := by
  obtain ⟨a, ha, a2, tr, htr, hcall, hord, -⟩ :=
    variadic_law testEnv (.fn .ordinary "" 0) .undefined .undefined
      [.num 5, .num 6, .num 7, .num 8, done] (by simp) rfl
  rw [hord rfl] at hcall
  exact ⟨a, ha, a2, tr, htr, hcall⟩

/-- C6 (context law): for every receiver `ctx`, function value `f` and argument
list `args`, invoking the adapted function with receiver `ctx` and arguments
`args` followed by `cb` invokes the underlying callable once, with receiver
exactly `ctx` and arguments `args`, and the continuation is called with what
dispatching the outcome of `f` run with receiver `ctx` on `args` gives. -/
theorem context_law (env : Env) (f ctx cb options : Value) (args : List Value)
    (hf : isFunction f = true) :
    ∃ a, antiquefy f options = .ok (a, []) ∧
      ∃ a2 tr, antiquefied env a ctx (args ++ [cb]) = .ok (a2, tr) ∧
        tr.filter Event.isCall = [Event.call a2._fn ctx args] ∧
        (isGenerator f = .ok (.bool false) → a2._fn = f) ∧
        (∀ n id, f = .fn .generator n id → a2._fn = .fn .driven n id) ∧
        tr.filter Event.isCallback = Bluebird.asCallback (outcome env f ctx args) cb a._options := by
  obtain ⟨a2, tr, hrun, -, hord, hgen, hcall, hcb, -⟩ :=
    antiquefied_run env f (Value.or options (.obj true [("spread", .bool false)])) ctx
      (args ++ [cb]) (by simp) hf
  refine ⟨_, antiquefy_ok f options hf, a2, tr, hrun, ?_, hord, hgen, ?_⟩
  · simpa using hcall
  · simpa using hcb

/-- Witness of C6 on the test "Should preserve the context":
`function(a) { return this.b + a; }` adapted and called on `{ b: 3 }` with
`(4, done)` calls `done(null, 7)`. -/
theorem context_law_witness :
    ∃ a, antiquefy (.fn .ordinary "" 4) .undefined = .ok (a, []) ∧
      ∃ a2 tr, antiquefied testEnv a (.obj true [("b", .num 3)]) ([.num 4] ++ [done]) =
          .ok (a2, tr) ∧
        tr.filter Event.isCall =
          [Event.call (.fn .ordinary "" 4) (.obj true [("b", .num 3)]) [.num 4]] ∧
        tr.filter Event.isCallback = [Event.callback done [.null, .num 7]] := by
  obtain ⟨a, ha, a2, tr, htr, hcall, hord, -, hcb⟩ :=
    context_law testEnv (.fn .ordinary "" 4) (.obj true [("b", .num 3)]) done .undefined [.num 4]
      rfl
  rw [hord rfl] at hcall
  have ha2 : a = ⟨.fn .ordinary "" 4, .obj true [("spread", .bool false)]⟩ := by
    have := ha.symm.trans (antiquefy_ok (.fn .ordinary "" 4) .undefined rfl)
    simpa [Value.or, truthy] using this
  subst ha2
  exact ⟨_, ha, a2, tr, htr, hcall, hcb⟩

/-- C7: for every generator function `f*` and argument list `args`, if driving
`f*` on `args` to completion yields `v`, then invoking the adapted function
with `args` followed by `cb` first passes `f*` through `Bluebird.coroutine`,
then calls the driver-wrapped function (the only call of the run: `f*` is not
called as an ordinary callable), and calls `cb` exactly once, with `(null, v)`. -/
theorem generator_law (env : Env) (n : String) (id : Nat) (this cb v : Value) (args : List Value)
    (hd : env.drive id this args = .fulfilled v) :
    ∃ a, antiquefy (.fn .generator n id) .undefined = .ok (a, []) ∧
      antiquefied env a this (args ++ [cb]) =
        .ok (⟨.fn .driven n id, a._options⟩,
          [Event.coroutine (.fn .generator n id), Event.call (.fn .driven n id) this args,
            Event.callback cb [.null, v]]) := by
  refine ⟨_, antiquefy_ok (.fn .generator n id) .undefined rfl, ?_⟩
  rw [antiquefied_generator env n id _ this (args ++ [cb]) (by simp)]
  simp [hd, Bluebird.asCallback, Value.or, truthy, Value.get, List.lookup]

/-- Witness of C7: `function*(a, b) { return a + b; }` adapted and called with
`(2, 3, done)`. -/
theorem generator_law_witness :
    ∃ a, antiquefy (.fn .generator "" 7) .undefined = .ok (a, []) ∧
      antiquefied testEnv a .undefined ([.num 2, .num 3] ++ [done]) =
        .ok (⟨.fn .driven "" 7, a._options⟩,
          [Event.coroutine (.fn .generator "" 7),
            Event.call (.fn .driven "" 7) .undefined [.num 2, .num 3],
            Event.callback done [.null, .num 5]]) :=
  generator_law testEnv "" 7 .undefined done (.num 5) [.num 2, .num 3] rfl

/-- C8: `antiquefy(fn, options)` throws if and only if `fn` is not a function;
when `fn` is a function it returns the adapted function, which stores `fn` as
it is, and no call is made while adapting; this holds for every options value,
`undefined` (omitted) included. -/
theorem antiquefy_throws_iff (fn options : Value) :
    ((∃ e, antiquefy fn options = .error e) ↔ isFunction fn = false) ∧
    (isFunction fn = true → ∃ a, antiquefy fn options = .ok (a, []) ∧ a._fn = fn) := by
  constructor
  · cases hf : isFunction fn <;> simp [antiquefy, hf]
  · intro hf
    exact ⟨_, antiquefy_ok fn options hf, rfl⟩

/-- Witness of C8: a function is adapted, with options omitted. -/
theorem antiquefy_throws_iff_witness :
    ∃ a, antiquefy (.fn .ordinary "" 0) .undefined = .ok (a, []) ∧ a._fn = .fn .ordinary "" 0 :=
  (antiquefy_throws_iff (.fn .ordinary "" 0) .undefined).2 rfl

/-- C9, the claim as stated fails: `isGenerator` returns its argument, not the
boolean `false`, for `null`, `undefined`, `0` and the empty string, and returns
`undefined` for an object without a constructor. -/
theorem isGenerator_falsy_not_boolean :
    isGenerator .null = .ok .null ∧
    isGenerator .undefined = .ok .undefined ∧
    isGenerator (.num 0) = .ok (.num 0) ∧
    isGenerator (.str "") = .ok (.str "") ∧
    isGenerator (.obj false []) = .ok .undefined ∧
    isGenerator .null ≠ .ok (.bool false) := by
  refine ⟨rfl, rfl, rfl, rfl, rfl, ?_⟩
  intro h
  cases h

/-- C9, amended: on every value made of primitives, arrays, functions and
objects with data properties, `isGenerator` does not throw, and its result is a
function of the value alone (it has no access to the environment of function
bodies, so it invokes nothing). For a falsy input (`null`, `undefined`, `0`,
the empty string, `false`) it returns the input itself; for an object with no
own `constructor` property it returns the boolean `false` when the object
inherits from `Object.prototype` and `undefined` when it has no prototype; so in
each of these cases the result is falsy. For every function value, which is
what the program calls it on, it returns a boolean, `true` exactly for a
generator function. -/
theorem isGenerator_classifies (v : Value) :
    (∃ r, isGenerator v = .ok r) ∧
    (v.truthy = false → isGenerator v = .ok v) ∧
    (∀ p props, v = .obj p props → props.lookup "constructor" = none →
      isGenerator v = .ok (if p then .bool false else .undefined)) ∧
    ((v.truthy = false ∨ ∃ p props, v = .obj p props ∧ props.lookup "constructor" = none) →
      ∃ r, isGenerator v = .ok r ∧ r.truthy = false) ∧
    (isFunction v = true → ∃ b, isGenerator v = .ok (.bool b)) ∧
    (∀ k n i, v = .fn k n i → isGenerator v = .ok (.bool (k == .generator))) := by
  have hfalsy : v.truthy = false → isGenerator v = .ok v := by
    intro h
    simp [isGenerator, Value.and, h]
  have hobj : ∀ p props, v = .obj p props → props.lookup "constructor" = none →
      isGenerator v = .ok (if p then .bool false else .undefined) := by
    intro p props hv hl
    subst hv
    cases p
    · simp [isGenerator, Value.and, truthy, Value.get, hl, inheritedConstructor, Bind.bind,
        Except.bind]
    · simp [isGenerator, Value.and, truthy, Value.get, hl, inheritedConstructor, Bind.bind,
        Except.bind, strictEqStr, pure, Except.pure]
  refine ⟨isGenerator_total v, hfalsy, hobj, ?_, ?_, ?_⟩
  · rintro (h | ⟨p, props, hv, hl⟩)
    · exact ⟨v, hfalsy h, h⟩
    · refine ⟨_, hobj p props hv hl, ?_⟩
      cases p <;> simp [truthy]
  · intro hf
    cases v with
    | fn k n i => exact ⟨_, isGenerator_fn k n i⟩
    | builtin n => exact ⟨_, isGenerator_builtin n⟩
    | undefined => simp [isFunction] at hf
    | null => simp [isFunction] at hf
    | bool b => simp [isFunction] at hf
    | num n => simp [isFunction] at hf
    | str s => simp [isFunction] at hf
    | arr xs => simp [isFunction] at hf
    | obj p ps => simp [isFunction] at hf
  · intro k n i hv
    subst hv
    exact isGenerator_fn k n i

/-- Witness of the amended C9: `isGenerator(null)` returns `null`, and on the
plain object `{ b: 3 }` it returns `false`. -/
theorem isGenerator_classifies_witness :
    isGenerator .null = .ok .null ∧
    isGenerator (.obj true [("b", .num 3)]) = .ok (.bool false) :=
  ⟨(isGenerator_classifies .null).2.1 rfl,
    (isGenerator_classifies (.obj true [("b", .num 3)])).2.2.1 true [("b", .num 3)] rfl rfl⟩

/-- C10: for an adapted function built from a generator function, after a first
invocation with at least one argument the stored callable is the
driver-wrapped function, the classifier reports that stored callable as not a
generator function, every later sequence of invocations leaves the stored
callable unchanged and applies no driver, and over any sequence of invocations
of the adapted function the driver is applied at most once; for a function
value that is not a generator function it is never applied. -/
theorem driver_cached (env : Env) (n : String) (id : Nat) (options this : Value)
    (arguments : List Value) (h : arguments ≠ []) :
    ∃ a, antiquefy (.fn .generator n id) options = .ok (a, []) ∧
      (∃ a1 tr, antiquefied env a this arguments = .ok (a1, tr) ∧
        a1._fn = .fn .driven n id ∧
        tr.filter Event.isCoroutine = [Event.coroutine (.fn .generator n id)] ∧
        isGenerator a1._fn = .ok (.bool false) ∧
        (∀ later, (invocations env a1 later).1 = a1 ∧
          (invocations env a1 later).2.filter Event.isCoroutine = [])) ∧
      (∀ calls, ((invocations env a calls).2.filter Event.isCoroutine).length ≤ 1) ∧
      (∀ f b, isFunction f = true → isGenerator f = .ok (.bool false) →
        antiquefy f options = .ok (b, []) →
        ∀ calls, (invocations env b calls).2.filter Event.isCoroutine = []) := by
  refine ⟨_, antiquefy_ok (.fn .generator n id) options rfl, ?_, ?_, ?_⟩
  · refine ⟨_, _, antiquefied_generator env n id _ this arguments h, rfl, ?_, rfl, ?_⟩
    · simp [List.filter_cons, Event.isCoroutine, (asCallback_events _ _ _).2.2.1]
    · intro later
      exact invocations_stable env (.fn .driven n id) _ rfl later
  · intro calls
    exact invocations_generator env n id _ calls
  · intro f b hf hg hb calls
    rw [antiquefy_ok f options hf] at hb
    cases hb
    exact (invocations_stable env f _ hg calls).2

/-- Witness of C10: `function*(a, b) { return a + b; }` adapted and invoked with
`(2, 3, done)`. -/
theorem driver_cached_witness :
    ∃ a, antiquefy (.fn .generator "" 7) .undefined = .ok (a, []) ∧
      (∃ a1 tr, antiquefied testEnv a .undefined [.num 2, .num 3, done] = .ok (a1, tr) ∧
        a1._fn = .fn .driven "" 7 ∧
        isGenerator a1._fn = .ok (.bool false)) ∧
      (∀ calls, ((invocations testEnv a calls).2.filter Event.isCoroutine).length ≤ 1) := by
  obtain ⟨a, ha, ⟨a1, tr, htr, hfn, -, hg, -⟩, hle, -⟩ :=
    driver_cached testEnv "" 7 .undefined .undefined [.num 2, .num 3, done] (by simp)
  exact ⟨a, ha, ⟨a1, tr, htr, hfn, hg⟩, hle⟩

end Antiquefy
